import Mathlib

/-!
Verification of the navigator-app map components.

Shallow embedding of the logic in:
  * `src/components/TrackingMarker.tsx` (marker `move` / `rotate`),
  * `PlaceMapView` / `LiveOrderRoute` (zoom transform, bounding box,
    `fetchDirections`, start/end waypoint selection, middle waypoints),
  * `EditLocationCoordScreen` (map-idle coordinate picking, save, reset).

JavaScript numbers are modelled as rationals (`ℚ`); JS `%` is modelled as
truncated remainder (`jsMod`), `Math.sign` as `jsSign`.
-/

/-- JS `Math.sign` on a rational: 1 for positive, -1 for negative, 0 for zero. -/
def jsSign (x : ℚ) : ℚ :=
  if 0 < x then 1 else if x < 0 then -1 else 0

/-- Truncation toward zero, as JS division inside `%` uses. -/
def jsTrunc (q : ℚ) : ℤ :=
  if 0 ≤ q then ⌊q⌋ else -⌊-q⌋

/-- JS remainder operator `a % b`: `a - b * trunc (a / b)`. -/
def jsMod (a b : ℚ) : ℚ :=
  a - b * jsTrunc (a / b)

/-- `rotate` in TrackingMarker.tsx: the signed delta after the wrap step
(`if (Math.abs(delta) > 180) delta = delta - 360 * Math.sign(delta)`). -/
def rotateDelta (currentRotation newHeading : ℚ) : ℚ :=
  if 180 < |newHeading - currentRotation| then
    (newHeading - currentRotation) - 360 * jsSign (newHeading - currentRotation)
  else
    newHeading - currentRotation

/-- `rotate` in TrackingMarker.tsx: the final rotation animated to,
`(currentRotation + delta) % 360`. -/
def rotateFinal (currentRotation newHeading : ℚ) : ℚ :=
  jsMod (currentRotation + rotateDelta currentRotation newHeading) 360

lemma jsSign_pos {x : ℚ} (hx : 0 < x) : jsSign x = 1 := by
  unfold jsSign
  rw [if_pos hx]

lemma jsSign_neg {x : ℚ} (hx : x < 0) : jsSign x = -1 := by
  unfold jsSign
  rw [if_neg (not_lt.mpr hx.le), if_pos hx]

lemma jsMod_sub_int (a b : ℚ) : ∃ k : ℤ, jsMod a b = a + b * k := by
  refine ⟨-jsTrunc (a / b), ?_⟩
  unfold jsMod
  push_cast
  ring

/-- C1: for current rotation `r` and target heading `h`, both in `[0, 360)`,
the wrapped delta has absolute value at most 180 and the final rotation
`(r + delta) % 360` is congruent to `h` modulo 360. -/
theorem trackingMarker_rotate_wrap (r h : ℚ) (hr0 : 0 ≤ r) (hr1 : r < 360)
    (hh0 : 0 ≤ h) (hh1 : h < 360) :
    |rotateDelta r h| ≤ 180 ∧ ∃ k : ℤ, rotateFinal r h = h + 360 * k := by
  constructor
  · by_cases hgt : 180 < |h - r|
    · rcases lt_or_le (h - r) 0 with hneg | hpos
      · have h1 : h - r < -180 := by
          rw [abs_of_neg hneg] at hgt
          linarith
        have hδ : rotateDelta r h = (h - r) + 360 := by
          unfold rotateDelta
          rw [if_pos hgt, jsSign_neg hneg]
          ring
        rw [hδ, abs_le]
        constructor <;> linarith
      · have h1 : 180 < h - r := by
          rwa [abs_of_nonneg hpos] at hgt
        have hδ : rotateDelta r h = (h - r) - 360 := by
          unfold rotateDelta
          rw [if_pos hgt, jsSign_pos (by linarith)]
          ring
        rw [hδ, abs_le]
        constructor <;> linarith
    · have hδ : rotateDelta r h = h - r := by
        unfold rotateDelta
        rw [if_neg hgt]
      rw [hδ]
      exact not_lt.mp hgt
  · have key : ∃ s : ℤ, r + rotateDelta r h = h + 360 * s := by
      by_cases hgt : 180 < |h - r|
      · rcases lt_or_le (h - r) 0 with hneg | hpos
        · refine ⟨1, ?_⟩
          unfold rotateDelta
          rw [if_pos hgt, jsSign_neg hneg]
          push_cast
          ring
        · have h1 : 180 < h - r := by
            rwa [abs_of_nonneg hpos] at hgt
          refine ⟨-1, ?_⟩
          unfold rotateDelta
          rw [if_pos hgt, jsSign_pos (by linarith)]
          push_cast
          ring
      · refine ⟨0, ?_⟩
        unfold rotateDelta
        rw [if_neg hgt]
        push_cast
        ring
    obtain ⟨s, hs⟩ := key
    obtain ⟨k, hk⟩ := jsMod_sub_int (r + rotateDelta r h) 360
    refine ⟨s + k, ?_⟩
    unfold rotateFinal
    rw [hk, hs]
    push_cast
    ring

/-- Witness for C1 at `r = 10`, `h = 350`. -/
theorem trackingMarker_rotate_wrap_witness :
    |rotateDelta 10 350| ≤ 180 ∧ ∃ k : ℤ, rotateFinal 10 350 = 350 + 360 * k :=
  trackingMarker_rotate_wrap 10 350 (by norm_num) (by norm_num) (by norm_num) (by norm_num)

namespace PlaceMapView

/-- `calculateZoomLevel` in PlaceMapView: `15 - zoom`. -/
def calculateZoomLevel (zoom : ℚ) : ℚ := 15 - zoom

end PlaceMapView

namespace LiveOrderRoute

/-- `calculateZoomLevel` in LiveOrderRoute: `14 - zoom`. -/
def calculateZoomLevel (zoom : ℚ) : ℚ := 14 - zoom

end LiveOrderRoute

/-- The `zoomLevel` prop each component passes to its `Camera` element. -/
structure CameraProps where
  zoomLevel : ℚ

/-- PlaceMapView renders `Camera` with `zoomLevel={calculateZoomLevel(zoom)}`. -/
def placeMapViewCamera (zoom : ℚ) : CameraProps :=
  { zoomLevel := PlaceMapView.calculateZoomLevel zoom }

/-- LiveOrderRoute renders `Camera` with `zoomLevel={calculateZoomLevel(zoom)}`. -/
def liveOrderRouteCamera (zoom : ℚ) : CameraProps :=
  { zoomLevel := LiveOrderRoute.calculateZoomLevel zoom }

/-- C2: PlaceMapView's `calculateZoomLevel` returns `15 - zoom`, LiveOrderRoute's
returns `14 - zoom`, and each component passes that value as its camera's
`zoomLevel`. -/
theorem calculateZoomLevel_linear (zoom : ℚ) :
    PlaceMapView.calculateZoomLevel zoom = 15 - zoom ∧
    LiveOrderRoute.calculateZoomLevel zoom = 14 - zoom ∧
    (placeMapViewCamera zoom).zoomLevel = PlaceMapView.calculateZoomLevel zoom ∧
    (liveOrderRouteCamera zoom).zoomLevel = LiveOrderRoute.calculateZoomLevel zoom :=
  ⟨rfl, rfl, rfl, rfl⟩

namespace TrackingMarker

/-- The component state the `move` function touches: `currentCoordinate`
is stored as `(latitude, longitude)`, `rotationDeg` mirrors the animated
rotation value. -/
structure State where
  currentCoordinate : ℚ × ℚ
  rotationDeg : ℚ

/-- `move` in TrackingMarker.tsx: sets `currentCoordinate` to the new
latitude/longitude; the `duration` argument is accepted but unused, since
interpolation is delegated to the map's built-in animation. -/
def move (state : State) (newLatitude newLongitude _duration : ℚ) : State :=
  { state with currentCoordinate := (newLatitude, newLongitude) }

end TrackingMarker

/-- C6: after `move(newLatitude, newLongitude, duration)` the marker's current
coordinate is exactly `(newLatitude, newLongitude)`, for every duration; the
duration has no effect on the resulting state. -/
theorem trackingMarker_move_sets_coordinate (s : TrackingMarker.State)
    (lat lng d d' : ℚ) :
    (TrackingMarker.move s lat lng d).currentCoordinate = (lat, lng) ∧
    TrackingMarker.move s lat lng d = TrackingMarker.move s lat lng d' :=
  ⟨rfl, rfl⟩

/-- Modelled from the spec: the Fleetbase SDK `Point` (not part of this
repository) is constructed with latitude first and longitude second. -/
structure Point where
  latitude : ℚ
  longitude : ℚ

namespace EditLocationCoordScreen

/-- Screen state of EditLocationCoordScreen: `centerCoordinate` is a
`[longitude, latitude]` pair, `isPanning` tracks user interaction. -/
structure State where
  centerCoordinate : ℚ × ℚ
  isPanning : Bool

/-- `handleRegionChangeComplete`: on map idle, clear `isPanning` and, when the
event's geometry has coordinates, set `centerCoordinate` to them. -/
def handleRegionChangeComplete (s : State) (geometryCoordinates : Option (ℚ × ℚ)) : State :=
  match geometryCoordinates with
  | some coords => { s with isPanning := false, centerCoordinate := coords }
  | none => { s with isPanning := false }

/-- `handleSave`: `const [lng, lat] = centerCoordinate; new Point(lat, lng)` —
the Point stored for the place. -/
def handleSavePoint (s : State) : Point :=
  Point.mk s.centerCoordinate.2 s.centerCoordinate.1

/-- Initial screen state: `getCoordinates(place)` yields
`[latitude, longitude]` = `(placeLat, placeLng)` and the initial
`centerCoordinate` is `[longitude, latitude]`. -/
def initialState (placeLat placeLng : ℚ) : State :=
  { centerCoordinate := (placeLng, placeLat), isPanning := false }

/-- `handleReset` (its settled state, after the 500 ms timeout): the camera and
`centerCoordinate` go back to the place's original `[longitude, latitude]`. -/
def handleReset (placeLat placeLng : ℚ) (s : State) : State :=
  { s with isPanning := false, centerCoordinate := (placeLng, placeLat) }

end EditLocationCoordScreen

/-- C7: on map idle the picked centre becomes the event geometry's
`[longitude, latitude]` pair, and `handleSave` stores it as
`Point(lat, lng)` — latitude first — so the saved Point is the map centre
with the axis order swapped. -/
theorem editLocation_save_swaps_axes (s : EditLocationCoordScreen.State) (lng lat : ℚ) :
    (EditLocationCoordScreen.handleRegionChangeComplete s (some (lng, lat))).centerCoordinate
      = (lng, lat) ∧
    (EditLocationCoordScreen.handleSavePoint
      (EditLocationCoordScreen.handleRegionChangeComplete s (some (lng, lat)))).latitude = lat ∧
    (EditLocationCoordScreen.handleSavePoint
      (EditLocationCoordScreen.handleRegionChangeComplete s (some (lng, lat)))).longitude = lng :=
  ⟨rfl, rfl, rfl⟩

/-- C10: after any sequence of map-idle updates, `handleReset` restores
`centerCoordinate` to the original place coordinates — the same
`[longitude, latitude]` pair the screen started from — so idle-updates
followed by a reset are an identity on the picked coordinate. -/
theorem editLocation_reset_roundtrip (placeLat placeLng : ℚ)
    (events : List (Option (ℚ × ℚ))) :
    (EditLocationCoordScreen.handleReset placeLat placeLng
        (events.foldl EditLocationCoordScreen.handleRegionChangeComplete
          (EditLocationCoordScreen.initialState placeLat placeLng))).centerCoordinate
      = (EditLocationCoordScreen.initialState placeLat placeLng).centerCoordinate ∧
    (EditLocationCoordScreen.initialState placeLat placeLng).centerCoordinate
      = (placeLng, placeLat) :=
  ⟨rfl, rfl⟩

/-- JS `Math.max(...xs)` over the non-empty list `x :: xs`. -/
def listMax (x : ℚ) (xs : List ℚ) : ℚ := xs.foldl max x

/-- JS `Math.min(...xs)` over the non-empty list `x :: xs`. -/
def listMin (x : ℚ) (xs : List ℚ) : ℚ := xs.foldl min x

/-- LiveOrderRoute's fitBounds effect: from the route geometry's coordinate
list (`[longitude, latitude]` pairs) it computes
`ne = [max lngs, max lats]` and `sw = [min lngs, min lats]`; the effect only
runs when the list is non-empty (`coordinates.length > 0`). -/
def fitBoundsCorners : List (ℚ × ℚ) → Option ((ℚ × ℚ) × (ℚ × ℚ))
  | [] => none
  | c :: cs =>
      some ((listMax c.1 (cs.map Prod.fst), listMax c.2 (cs.map Prod.snd)),
            (listMin c.1 (cs.map Prod.fst), listMin c.2 (cs.map Prod.snd)))

lemma listMax_is_ub (xs : List ℚ) : ∀ x : ℚ, x ≤ listMax x xs ∧ ∀ y ∈ xs, y ≤ listMax x xs := by
  induction xs with
  | nil =>
      intro x
      exact ⟨le_refl x, by simp⟩
  | cons a as ih =>
      intro x
      have hstep : listMax x (a :: as) = listMax (max x a) as := rfl
      obtain ⟨hx, hall⟩ := ih (max x a)
      refine ⟨?_, ?_⟩
      · rw [hstep]
        exact le_trans (le_max_left x a) hx
      · intro y hy
        rw [List.mem_cons] at hy
        rcases hy with rfl | hy
        · rw [hstep]
          exact le_trans (le_max_right x y) hx
        · rw [hstep]
          exact hall y hy

lemma listMax_is_mem (xs : List ℚ) : ∀ x : ℚ, listMax x xs = x ∨ listMax x xs ∈ xs := by
  induction xs with
  | nil =>
      intro x
      exact Or.inl rfl
  | cons a as ih =>
      intro x
      have hstep : listMax x (a :: as) = listMax (max x a) as := rfl
      rcases ih (max x a) with heq | hmem
      · rcases max_choice x a with hxa | hxa
        · exact Or.inl (by rw [hstep, heq, hxa])
        · refine Or.inr ?_
          rw [hstep, heq, hxa]
          exact List.mem_cons_self a as
      · exact Or.inr (by rw [hstep]; exact List.mem_cons_of_mem a hmem)

lemma listMin_is_lb (xs : List ℚ) : ∀ x : ℚ, listMin x xs ≤ x ∧ ∀ y ∈ xs, listMin x xs ≤ y := by
  induction xs with
  | nil =>
      intro x
      exact ⟨le_refl x, by simp⟩
  | cons a as ih =>
      intro x
      have hstep : listMin x (a :: as) = listMin (min x a) as := rfl
      obtain ⟨hx, hall⟩ := ih (min x a)
      refine ⟨?_, ?_⟩
      · rw [hstep]
        exact le_trans hx (min_le_left x a)
      · intro y hy
        rw [List.mem_cons] at hy
        rcases hy with rfl | hy
        · rw [hstep]
          exact le_trans hx (min_le_right x y)
        · rw [hstep]
          exact hall y hy

lemma listMin_is_mem (xs : List ℚ) : ∀ x : ℚ, listMin x xs = x ∨ listMin x xs ∈ xs := by
  induction xs with
  | nil =>
      intro x
      exact Or.inl rfl
  | cons a as ih =>
      intro x
      have hstep : listMin x (a :: as) = listMin (min x a) as := rfl
      rcases ih (min x a) with heq | hmem
      · rcases min_choice x a with hxa | hxa
        · exact Or.inl (by rw [hstep, heq, hxa])
        · refine Or.inr ?_
          rw [hstep, heq, hxa]
          exact List.mem_cons_self a as
      · exact Or.inr (by rw [hstep]; exact List.mem_cons_of_mem a hmem)

/-- C3: for a non-empty route coordinate list, fitBounds' northeast corner is
the (attained) maximum of the longitudes and latitudes, the southwest corner
the (attained) minimum, and every route coordinate lies inside the box they
span. -/
theorem liveOrderRoute_fitBounds_box (coords : List (ℚ × ℚ)) (ne sw : ℚ × ℚ)
    (hsome : fitBoundsCorners coords = some (ne, sw)) :
    ne.1 ∈ coords.map Prod.fst ∧ ne.2 ∈ coords.map Prod.snd ∧
    sw.1 ∈ coords.map Prod.fst ∧ sw.2 ∈ coords.map Prod.snd ∧
    ∀ p ∈ coords, sw.1 ≤ p.1 ∧ p.1 ≤ ne.1 ∧ sw.2 ≤ p.2 ∧ p.2 ≤ ne.2 := by
  match coords with
  | [] => simp [fitBoundsCorners] at hsome
  | c :: cs =>
      rw [fitBoundsCorners, Option.some_inj, Prod.mk.injEq] at hsome
      obtain ⟨hne, hsw⟩ := hsome
      subst hne
      subst hsw
      refine ⟨?_, ?_, ?_, ?_, ?_⟩
      · rcases listMax_is_mem (cs.map Prod.fst) c.1 with heq | hmem
        · rw [heq]
          simp
        · rw [List.map_cons]
          exact List.mem_cons_of_mem _ hmem
      · rcases listMax_is_mem (cs.map Prod.snd) c.2 with heq | hmem
        · rw [heq]
          simp
        · rw [List.map_cons]
          exact List.mem_cons_of_mem _ hmem
      · rcases listMin_is_mem (cs.map Prod.fst) c.1 with heq | hmem
        · rw [heq]
          simp
        · rw [List.map_cons]
          exact List.mem_cons_of_mem _ hmem
      · rcases listMin_is_mem (cs.map Prod.snd) c.2 with heq | hmem
        · rw [heq]
          simp
        · rw [List.map_cons]
          exact List.mem_cons_of_mem _ hmem
      · intro p hp
        obtain ⟨hmax1, hmaxall1⟩ := listMax_is_ub (cs.map Prod.fst) c.1
        obtain ⟨hmax2, hmaxall2⟩ := listMax_is_ub (cs.map Prod.snd) c.2
        obtain ⟨hmin1, hminall1⟩ := listMin_is_lb (cs.map Prod.fst) c.1
        obtain ⟨hmin2, hminall2⟩ := listMin_is_lb (cs.map Prod.snd) c.2
        rw [List.mem_cons] at hp
        rcases hp with rfl | hp
        · exact ⟨hmin1, hmax1, hmin2, hmax2⟩
        · refine ⟨?_, ?_, ?_, ?_⟩
          · exact hminall1 p.1 (List.mem_map_of_mem Prod.fst hp)
          · exact hmaxall1 p.1 (List.mem_map_of_mem Prod.fst hp)
          · exact hminall2 p.2 (List.mem_map_of_mem Prod.snd hp)
          · exact hmaxall2 p.2 (List.mem_map_of_mem Prod.snd hp)

/-- Witness for C3 on the route `[(1, 2), (3, 0), (2, 5)]`: the corners are
`ne = (3, 5)`, `sw = (1, 0)` and all three coordinates lie inside the box. -/
theorem liveOrderRoute_fitBounds_box_witness :
    ((3 : ℚ), (5 : ℚ)).1 ∈ ([((1 : ℚ), (2 : ℚ)), (3, 0), (2, 5)].map Prod.fst) ∧
    ((3 : ℚ), (5 : ℚ)).2 ∈ ([((1 : ℚ), (2 : ℚ)), (3, 0), (2, 5)].map Prod.snd) ∧
    ((1 : ℚ), (0 : ℚ)).1 ∈ ([((1 : ℚ), (2 : ℚ)), (3, 0), (2, 5)].map Prod.fst) ∧
    ((1 : ℚ), (0 : ℚ)).2 ∈ ([((1 : ℚ), (2 : ℚ)), (3, 0), (2, 5)].map Prod.snd) ∧
    ∀ p ∈ [((1 : ℚ), (2 : ℚ)), (3, 0), (2, 5)],
      ((1 : ℚ), (0 : ℚ)).1 ≤ p.1 ∧ p.1 ≤ ((3 : ℚ), (5 : ℚ)).1 ∧
      ((1 : ℚ), (0 : ℚ)).2 ≤ p.2 ∧ p.2 ≤ ((3 : ℚ), (5 : ℚ)).2 :=
  liveOrderRoute_fitBounds_box [(1, 2), (3, 0), (2, 5)] (3, 5) (1, 0) (by decide)

/-- A latitude/longitude pair as used by `getPlaceCoords` and
`fetchDirections`. -/
structure Coord where
  latitude : ℚ
  longitude : ℚ
deriving DecidableEq

/-- A waypoint as passed to `fetchDirections` (`wp.coordinate`). -/
structure Waypoint where
  coordinate : Coord
deriving DecidableEq

/-- A route geometry as returned by the directions API
(`routeGeometry.coordinates` is a list of `[longitude, latitude]` pairs). -/
structure RouteGeometry where
  coordinates : List (ℚ × ℚ)
deriving DecidableEq

/-- One entry of the parsed response's `routes` array. -/
structure DirectionsRoute where
  geometry : RouteGeometry
deriving DecidableEq

/-- Outcome of `fetch` + `response.json()` in `fetchDirections`: either the
fetch/parse throws, or it yields parsed data whose `routes` field may be
absent (`none`) or an array. -/
inductive FetchOutcome where
  | failure : FetchOutcome
  | success : Option (List DirectionsRoute) → FetchOutcome
deriving DecidableEq

/-- One coordinate of the request, rendered `longitude,latitude`
(the number-to-string rendering `numStr` is kept abstract). -/
def coordPair (numStr : ℚ → String) (c : Coord) : String :=
  numStr c.longitude ++ "," ++ numStr c.latitude

/-- The coordinate list `fetchDirections` builds:
origin, then the waypoints in order, then the destination. -/
def coordinatesParam (numStr : ℚ → String) (origin destination : Coord)
    (waypoints : List Waypoint) : List String :=
  coordPair numStr origin ::
    ((waypoints.map fun wp => coordPair numStr wp.coordinate) ++
      [coordPair numStr destination])

/-- The joined coordinate string: entries joined by `;`. -/
def coordinatesString (numStr : ℚ → String) (origin destination : Coord)
    (waypoints : List Waypoint) : String :=
  String.intercalate ";" (coordinatesParam numStr origin destination waypoints)

/-- The request URL. -/
def directionsUrl (numStr : ℚ → String) (accessToken : String)
    (origin destination : Coord) (waypoints : List Waypoint) : String :=
  "https://api.mapbox.com/directions/v5/mapbox/driving/" ++
    coordinatesString numStr origin destination waypoints ++
    "?geometries=geojson&access_token=" ++ accessToken

/-- `fetchDirections`: the network is an oracle `net` from URL to outcome;
on failure the catch block swallows the error and the function returns null;
on success it returns `data.routes[0].geometry` when `data.routes` exists and
is non-empty, and null otherwise. -/
def fetchDirections (net : String → FetchOutcome) (numStr : ℚ → String)
    (accessToken : String) (origin destination : Coord)
    (waypoints : List Waypoint) : Option RouteGeometry :=
  match net (directionsUrl numStr accessToken origin destination waypoints) with
  | FetchOutcome.failure => none
  | FetchOutcome.success none => none
  | FetchOutcome.success (some []) => none
  | FetchOutcome.success (some (r :: _)) => some r.geometry

/-- C4: `fetchDirections` is total (never throws) and returns the first
route's geometry exactly when the parsed response carries a non-empty routes
array; in every other case — fetch/parse failure, missing `routes`, empty
`routes` — it returns null. -/
theorem fetchDirections_first_route_or_null (net : String → FetchOutcome)
    (numStr : ℚ → String) (accessToken : String) (origin destination : Coord)
    (waypoints : List Waypoint) :
    (∀ g : RouteGeometry,
      fetchDirections net numStr accessToken origin destination waypoints = some g ↔
        ∃ r rs, net (directionsUrl numStr accessToken origin destination waypoints)
            = FetchOutcome.success (some (r :: rs)) ∧ g = r.geometry) ∧
    ((∀ r rs, net (directionsUrl numStr accessToken origin destination waypoints)
        ≠ FetchOutcome.success (some (r :: rs))) →
      fetchDirections net numStr accessToken origin destination waypoints = none) := by
  constructor
  · intro g
    unfold fetchDirections
    cases hnet : net (directionsUrl numStr accessToken origin destination waypoints) with
    | failure => simp
    | success routes =>
        cases routes with
        | none => simp
        | some rs =>
            cases rs with
            | nil => simp
            | cons r rest =>
                simp only [Option.some_inj]
                constructor
                · intro hg
                  exact ⟨r, rest, rfl, hg.symm⟩
                · rintro ⟨r', rs', hr', hg⟩
                  rw [FetchOutcome.success.injEq, Option.some_inj, List.cons.injEq] at hr'
                  rw [hg, hr'.1]
  · intro hnone
    unfold fetchDirections
    cases hnet : net (directionsUrl numStr accessToken origin destination waypoints) with
    | failure => rfl
    | success routes =>
        cases routes with
        | none => rfl
        | some rs =>
            cases rs with
            | nil => rfl
            | cons r rest => exact absurd hnet (hnone r rest)

/-- C5: the request coordinate list is origin first, the waypoints in list
order, destination last, each rendered `longitude,latitude`, joined by `;`. -/
theorem fetchDirections_coordinate_order (numStr : ℚ → String)
    (origin destination : Coord) (waypoints : List Waypoint) :
    coordinatesString numStr origin destination waypoints
      = String.intercalate ";" (coordinatesParam numStr origin destination waypoints) ∧
    (coordinatesParam numStr origin destination waypoints).head?
      = some (numStr origin.longitude ++ "," ++ numStr origin.latitude) ∧
    ((coordinatesParam numStr origin destination waypoints).drop 1).dropLast
      = waypoints.map (fun wp =>
          numStr wp.coordinate.longitude ++ "," ++ numStr wp.coordinate.latitude) ∧
    (coordinatesParam numStr origin destination waypoints).getLast?
      = some (numStr destination.longitude ++ "," ++ numStr destination.latitude) ∧
    (coordinatesParam numStr origin destination waypoints).length
      = waypoints.length + 2 := by
  refine ⟨rfl, rfl, ?_, ?_, ?_⟩
  · show ((waypoints.map fun wp => coordPair numStr wp.coordinate) ++
      [coordPair numStr destination]).dropLast
        = waypoints.map fun wp => coordPair numStr wp.coordinate
    rw [List.dropLast_concat]
  · show ((coordPair numStr origin ::
      (waypoints.map fun wp => coordPair numStr wp.coordinate)) ++
        [coordPair numStr destination]).getLast? = some (coordPair numStr destination)
    rw [List.getLast?_concat]
  · show ((waypoints.map fun wp => coordPair numStr wp.coordinate) ++
      [coordPair numStr destination]).length + 1 = waypoints.length + 2
    rw [List.length_append, List.length_map]
    rfl

namespace LiveOrderRoute

/-- `startWaypoint` in LiveOrderRoute (`focusCurrentDestination` false path):
`!pickup && waypoints.length > 0 ? waypoints[0] : pickup`. A missing
pickup/dropoff attribute is `none`. -/
def startWaypoint {α : Type} (pickup : Option α) (waypoints : List α) : Option α :=
  if pickup.isNone && decide (0 < waypoints.length) then waypoints.head? else pickup

/-- Modelled from the spec: the `first` and `last` utilities (src/utils, not
in this excerpt) return a list's first and last element; `endWaypoint` is
`!dropoff && waypoints.length > 0 && last(waypoints) !== first(waypoints)
? last(waypoints) : dropoff`. -/
def endWaypoint {α : Type} [DecidableEq α] (dropoff : Option α) (waypoints : List α) : Option α :=
  if dropoff.isNone && decide (0 < waypoints.length) &&
      decide (waypoints.getLast? ≠ waypoints.head?) then
    waypoints.getLast?
  else
    dropoff

/-- `middleWaypoints` in LiveOrderRoute:
`focusCurrentDestination ? [] : waypoints.slice(1, -1)`; JS `slice(1, -1)`
keeps indices `1 .. length - 2`. -/
def middleWaypoints {α : Type} (focusCurrentDestination : Bool) (waypoints : List α) : List α :=
  if focusCurrentDestination then [] else (waypoints.take (waypoints.length - 1)).drop 1

/-- `finalMarkerSize` in LiveOrderRoute:
`middleWaypoints.length > 0 ? (middleWaypoints.length > 3 ? 'xxs' : 'xs') : markerSize`. -/
def finalMarkerSize {α : Type} (middle : List α) (markerSize : String) : String :=
  if 0 < middle.length then
    if 3 < middle.length then "xxs" else "xs"
  else
    markerSize

end LiveOrderRoute

/-- C8: with `focusCurrentDestination` false, the route start is the first
waypoint when there is no pickup and the waypoint list is non-empty, else the
pickup; the route end is the last waypoint when there is no dropoff, the list
is non-empty and its last element differs from its first, else the dropoff. -/
theorem liveOrderRoute_start_end_selection {α : Type} [DecidableEq α]
    (pickup dropoff : Option α) (ws : List α) :
    (pickup = none → ws ≠ [] → LiveOrderRoute.startWaypoint pickup ws = ws.head?) ∧
    (pickup.isSome → LiveOrderRoute.startWaypoint pickup ws = pickup) ∧
    (ws = [] → LiveOrderRoute.startWaypoint pickup ws = pickup) ∧
    (dropoff = none → ws ≠ [] → ws.getLast? ≠ ws.head? →
      LiveOrderRoute.endWaypoint dropoff ws = ws.getLast?) ∧
    (dropoff.isSome → LiveOrderRoute.endWaypoint dropoff ws = dropoff) ∧
    (ws.getLast? = ws.head? → LiveOrderRoute.endWaypoint dropoff ws = dropoff) ∧
    (ws = [] → LiveOrderRoute.endWaypoint dropoff ws = dropoff) := by
  refine ⟨?_, ?_, ?_, ?_, ?_, ?_, ?_⟩
  · intro h1 h2
    subst h1
    simp [LiveOrderRoute.startWaypoint, List.length_pos.mpr h2]
  · intro h1
    rw [Option.isSome_iff_exists] at h1
    obtain ⟨p, hp⟩ := h1
    subst hp
    simp [LiveOrderRoute.startWaypoint]
  · intro h1
    subst h1
    simp [LiveOrderRoute.startWaypoint]
  · intro h1 h2 h3
    subst h1
    simp [LiveOrderRoute.endWaypoint, List.length_pos.mpr h2, h3]
  · intro h1
    rw [Option.isSome_iff_exists] at h1
    obtain ⟨p, hp⟩ := h1
    subst hp
    simp [LiveOrderRoute.endWaypoint]
  · intro h1
    simp [LiveOrderRoute.endWaypoint, h1]
  · intro h1
    subst h1
    simp [LiveOrderRoute.endWaypoint]

/-- Witness for C8 on pickup = dropoff = none and waypoints `[1, 2, 3]`. -/
theorem liveOrderRoute_start_end_selection_witness :
    LiveOrderRoute.startWaypoint (none : Option ℕ) [1, 2, 3] = some 1 ∧
    LiveOrderRoute.endWaypoint (none : Option ℕ) [1, 2, 3] = some 3 := by
  have h := liveOrderRoute_start_end_selection (none : Option ℕ) none [1, 2, 3]
  refine ⟨?_, ?_⟩
  · have h1 := h.1 rfl (by decide)
    simpa using h1
  · have h4 := h.2.2.2.1 rfl (by decide) (by decide)
    simpa using h4

/-- C9: the middle waypoints are the waypoint list with its first and last
element removed — empty whenever `focusCurrentDestination` is true or the
list has at most 2 elements — and the rendered marker size is `xxs` for more
than 3 middle waypoints, `xs` for 1 to 3, and the `markerSize` prop for
none. -/
theorem liveOrderRoute_middle_waypoints {α : Type} (focus : Bool) (ws : List α)
    (markerSize : String) :
    LiveOrderRoute.middleWaypoints true ws = ([] : List α) ∧
    (ws.length ≤ 2 → LiveOrderRoute.middleWaypoints focus ws = []) ∧
    (∀ (a b : α) (mid : List α), ws = a :: (mid ++ [b]) →
      LiveOrderRoute.middleWaypoints false ws = mid) ∧
    (3 < (LiveOrderRoute.middleWaypoints focus ws).length →
      LiveOrderRoute.finalMarkerSize (LiveOrderRoute.middleWaypoints focus ws) markerSize
        = "xxs") ∧
    (0 < (LiveOrderRoute.middleWaypoints focus ws).length →
      (LiveOrderRoute.middleWaypoints focus ws).length ≤ 3 →
      LiveOrderRoute.finalMarkerSize (LiveOrderRoute.middleWaypoints focus ws) markerSize
        = "xs") ∧
    ((LiveOrderRoute.middleWaypoints focus ws).length = 0 →
      LiveOrderRoute.finalMarkerSize (LiveOrderRoute.middleWaypoints focus ws) markerSize
        = markerSize) := by
  refine ⟨?_, ?_, ?_, ?_, ?_, ?_⟩
  · simp [LiveOrderRoute.middleWaypoints]
  · intro h1
    cases focus with
    | true => simp [LiveOrderRoute.middleWaypoints]
    | false =>
        apply List.eq_nil_of_length_eq_zero
        simp only [LiveOrderRoute.middleWaypoints, if_neg Bool.false_ne_true,
          List.length_drop, List.length_take]
        omega
  · intro a b mid h1
    subst h1
    simp only [LiveOrderRoute.middleWaypoints, if_neg Bool.false_ne_true]
    have hlen : (a :: (mid ++ [b])).length - 1 = mid.length + 1 := by
      simp
    rw [hlen]
    rw [List.take_cons (by omega : 0 < mid.length + 1)]
    simp only [Nat.add_sub_cancel]
    rw [List.take_left]
    rfl
  · intro h1
    have h0 : 0 < (LiveOrderRoute.middleWaypoints focus ws).length := by omega
    simp [LiveOrderRoute.finalMarkerSize, h0, h1]
  · intro h1 h2
    have h3 : ¬ 3 < (LiveOrderRoute.middleWaypoints focus ws).length := by omega
    simp [LiveOrderRoute.finalMarkerSize, h1, h3]
  · intro h1
    simp [LiveOrderRoute.finalMarkerSize, h1]

/-- Witness for C9 on concrete waypoint lists of lengths 7, 4, 2 and 1. -/
theorem liveOrderRoute_middle_waypoints_witness :
    LiveOrderRoute.middleWaypoints true ([0] : List ℕ) = [] ∧
    LiveOrderRoute.middleWaypoints false ([9, 8] : List ℕ) = [] ∧
    LiveOrderRoute.middleWaypoints false ([0, 1, 2, 3, 4, 5, 6] : List ℕ) = [1, 2, 3, 4, 5] ∧
    LiveOrderRoute.finalMarkerSize
      (LiveOrderRoute.middleWaypoints false ([0, 1, 2, 3, 4, 5, 6] : List ℕ)) "sm" = "xxs" ∧
    LiveOrderRoute.finalMarkerSize
      (LiveOrderRoute.middleWaypoints false ([7, 8, 9, 10] : List ℕ)) "sm" = "xs" ∧
    LiveOrderRoute.finalMarkerSize
      (LiveOrderRoute.middleWaypoints false ([9, 8] : List ℕ)) "sm" = "sm" := by
  refine ⟨?_, ?_, ?_, ?_, ?_, ?_⟩
  · exact (liveOrderRoute_middle_waypoints false ([0] : List ℕ) "sm").1
  · exact (liveOrderRoute_middle_waypoints false ([9, 8] : List ℕ) "sm").2.1 (by decide)
  · exact (liveOrderRoute_middle_waypoints false ([0, 1, 2, 3, 4, 5, 6] : List ℕ) "sm").2.2.1
      0 6 [1, 2, 3, 4, 5] rfl
  · exact (liveOrderRoute_middle_waypoints false ([0, 1, 2, 3, 4, 5, 6] : List ℕ) "sm").2.2.2.1
      (by decide)
  · exact (liveOrderRoute_middle_waypoints false ([7, 8, 9, 10] : List ℕ) "sm").2.2.2.2.1
      (by decide) (by decide)
  · exact (liveOrderRoute_middle_waypoints false ([9, 8] : List ℕ) "sm").2.2.2.2.2
      (by decide)

/-- Witness for C4: a network that always fails yields a null geometry. -/
theorem fetchDirections_first_route_or_null_witness :
    fetchDirections (fun _ => FetchOutcome.failure) (fun _ => "0") "token"
      (Coord.mk 1 2) (Coord.mk 3 4) [] = none :=
  (fetchDirections_first_route_or_null (fun _ => FetchOutcome.failure) (fun _ => "0") "token"
      (Coord.mk 1 2) (Coord.mk 3 4) []).2
    (fun _r _rs h => FetchOutcome.noConfusion h)
